import Mathlib

/-!
Verification of the companion-cube activity pipeline against its
natural-language specification.

The Rust sources are shallowly embedded:
* `f64` time quantities (durations in minutes or seconds, rational
  timestamps) are modelled as `ℚ`; `f64::round` is `rustRound`
  (round half away from zero) and numeric casts `as i64` / `as u32`
  truncate toward zero (`ratTrunc`);
* machine integers are `ℤ` / `ℕ`;
* text is `List Char` (byte positions in the Rust code coincide with
  character positions at every place the embedded functions index,
  because the indexed characters are ASCII);
* fallible external calls (HTTP, JSON decoding by the serde library)
  are modelled by `Option` values supplied as arguments, since the
  corresponding code is in external crates, not in this repository.
-/

namespace CompanionCube

/-- Rust `f64::round`: round half away from zero (percentages in
`calculate_productivity_metrics` are produced by `.round()` and are
therefore integral; we give them type `ℤ`). -/
def rustRound (q : ℚ) : ℤ := if 0 ≤ q then ⌊q + 1/2⌋ else ⌈q - 1/2⌉

/-- Rust numeric cast `as i64` (also `num_seconds` of a `chrono`
duration): truncation toward zero. -/
def ratTrunc (q : ℚ) : ℤ := if 0 ≤ q then ⌊q⌋ else ⌈q⌉

/-! ## modules/productivity_calc.rs -/

/-- One categorized activity, an element of the `activities` slice of
`calculate_productivity_metrics`: `(app_name, category, score, duration_minutes)`. -/
structure Activity where
  app : String
  category : String
  score : Option ℤ
  duration : ℚ
deriving DecidableEq

/-- The `productivity_level` match inside `calculate_productivity_metrics`
(productivity_calc.rs lines 31-43): an explicit score wins over the
category; the category match defaults to "neutral". -/
def productivity_level (category : String) (score : Option ℤ) : String :=
  match score with
  | some s =>
    if 80 ≤ s then "productive"
    else if 60 ≤ s then "moderate"
    else if 40 ≤ s then "neutral"
    else "unproductive"
  | none =>
    if category = "work" ∨ category = "development" then "productive"
    else if category = "productivity" then "moderate"
    else if category = "communication" ∨ category = "system" then "neutral"
    else if category = "entertainment" then "unproductive"
    else "neutral"

/-- Contribution of one activity to the running total of one productivity
level (the `category_time` hash-map entry the loop adds `duration` to). -/
def level_duration (level : String) (a : Activity) : ℚ :=
  if productivity_level a.category a.score = level then a.duration else 0

/-- Total minutes accumulated for one productivity level; the hash-map
accumulation of the source loop is order-insensitive, so it equals this sum. -/
def bucket_minutes (acts : List Activity) (level : String) : ℚ :=
  (acts.map (level_duration level)).sum

/-- The `total_minutes` accumulator of `calculate_productivity_metrics`. -/
def total_minutes (acts : List Activity) : ℚ :=
  (acts.map (·.duration)).sum

/-- Result record of `calculate_productivity_metrics`
(productivity_calc.rs lines 4-15). -/
structure ProductivityMetrics where
  productive_minutes : ℚ
  moderate_minutes : ℚ
  unproductive_minutes : ℚ
  neutral_minutes : ℚ
  work_percentage : ℤ
  distraction_percentage : ℤ
  neutral_percentage : ℤ
  current_state : String
  context_switches_per_hour : ℚ
deriving DecidableEq

/-- productivity_calc.rs lines 90-117 (`determine_current_state`). -/
def determine_current_state (productive moderate unproductive _neutral total csph : ℚ) :
    String :=
  if total < 1/2 then "afk"
  else
    let productive_ratio := (productive + moderate) / total
    let unproductive_ratio := unproductive / total
    if 7/10 < productive_ratio ∧ ¬ (30 < csph) then "productive"
    else if 1/2 < productive_ratio then "moderate"
    else if 1/2 < unproductive_ratio ∨ 30 < csph then "unproductive"
    else "chilling"

/-- productivity_calc.rs lines 18-87 (`calculate_productivity_metrics`).
Each percentage is `((bucket / total) * 100).round()` when the total is
positive, else `0`. -/
def calculate_productivity_metrics (activities : List Activity)
    (context_switches : ℕ) (total_hours : ℚ) : ProductivityMetrics :=
  let total := total_minutes activities
  let productive := bucket_minutes activities "productive"
  let moderate := bucket_minutes activities "moderate"
  let unproductive := bucket_minutes activities "unproductive"
  let neutral := bucket_minutes activities "neutral"
  let csph := (context_switches : ℚ) / max total_hours (1/10)
  { productive_minutes := productive
    moderate_minutes := moderate
    unproductive_minutes := unproductive
    neutral_minutes := neutral
    work_percentage :=
      if 0 < total then rustRound ((productive + moderate) / total * 100) else 0
    distraction_percentage :=
      if 0 < total then rustRound (unproductive / total * 100) else 0
    neutral_percentage :=
      if 0 < total then rustRound (neutral / total * 100) else 0
    current_state :=
      determine_current_state productive moderate unproductive neutral total csph
    context_switches_per_hour := csph }

/-! ## lib.rs mode scheduler -/

/-- Minute-of-hour of a timestamp counted in whole seconds since the
epoch (`chrono` `DateTime::minute` for a UTC timestamp). -/
def minuteOf (now : ℤ) : ℤ := (now / 60) % 60

/-- lib.rs lines 852-861 (`get_mode_interval_minutes`). -/
def get_mode_interval_minutes (mode : String) : ℤ :=
  match mode with
  | "ghost" => 60
  | "chill" => 60
  | "study_buddy" => 5
  | "coach" => 15
  | _ => 60

/-- lib.rs lines 863-899 (`should_run_summary`).  `now` and `lastRun` are
UTC timestamps in whole seconds; the source compares
`num_seconds`/`num_minutes` of the elapsed signed duration, which for the
branches taken here equals integer division of the elapsed seconds. -/
def should_run_summary (mode : String) (lastRun : Option ℤ) (now : ℤ) : Bool :=
  if (match lastRun with
      | some last => decide (now - last < 60)
      | none => false) then false
  else
    match mode with
    | "ghost" | "chill" => minuteOf now = 0
    | "study_buddy" => minuteOf now % 5 = 0
    | "coach" => minuteOf now % 15 = 0
    | _ =>
      match lastRun with
      | some last => get_mode_interval_minutes mode ≤ (now - last) / 60
      | none => true

/-! ## modules/ai_integration.rs -/

/-- Result record of the response parser (ai_integration.rs lines 20-36,
`LLMAnalysis`).  The three scores are Rust `u32` values, modelled as `ℕ`. -/
structure LLMAnalysis where
  current_state : String
  focus_trend : String
  distraction_trend : String
  confidence : String
  primary_activity : String
  professional_summary : String
  work_score : ℕ
  distraction_score : ℕ
  neutral_score : ℕ
  reasoning : String
deriving DecidableEq

/-- ai_integration.rs lines 42-44. -/
def default_professional_summary : String :=
  "Activity summary is being generated. Please wait for detailed analysis."

/-- Rust `str::trim` (drop leading and trailing whitespace). -/
def trimChars (s : List Char) : List Char :=
  ((s.dropWhile Char.isWhitespace).reverse.dropWhile Char.isWhitespace).reverse

/-- Rust `str::strip_prefix`: `some rest` when `p` is an initial segment. -/
def stripLit (p s : List Char) : Option (List Char) :=
  match p, s with
  | [], s => some s
  | _ :: _, [] => none
  | a :: p, b :: s => if a = b then stripLit p s else none

/-- Rust `str::strip_suffix`. -/
def stripSuffixLit (p s : List Char) : Option (List Char) :=
  (stripLit p.reverse s.reverse).map List.reverse

/-- The cleaning chain of `parse_llm_response` (ai_integration.rs lines
238-250).  Each `.unwrap_or(response)` falls back to the ORIGINAL
(untrimmed) `response`, not to the previous stage; the embedding keeps
that behaviour. -/
def cleanResponse (response : List Char) : List Char :=
  let t0 := trimChars response
  let t1 := (stripLit "ðŸ“Š Activity detected: [".toList t0).getD response
  let t2 := (stripLit "ðŸ“Š Activity detected:".toList t1).getD response
  let t3 := (stripLit "Activity detected:".toList t2).getD response
  let t4 := (stripLit "[".toList t3).getD response
  let t5 := (stripSuffixLit "]".toList t4).getD response
  trimChars t5

/-- Match one of the three field patterns of `extract_field`
(ai_integration.rs lines 303-322) at the current position:
optionally quoted field name, then (optionally `\s*`-separated) `:`,
then a quoted capture `([^"]+)` of at least one non-quote character.
The regex capture `[^"]+` is greedy and the closing quote must be the
first quote after it, which is exactly `takeWhile (· ≠ quote)`. -/
def matchFieldAt (quoted ws : Bool) (name s : List Char) : Option (List Char) :=
  let afterName :=
    if quoted then
      match s with
      | '"' :: rest =>
        (stripLit name rest).bind fun r =>
          match r with
          | '"' :: r2 => some r2
          | _ => none
      | _ => none
    else stripLit name s
  afterName.bind fun r1 =>
    let r2 := if ws then r1.dropWhile Char.isWhitespace else r1
    match r2 with
    | ':' :: r3 =>
      let r4 := if ws then r3.dropWhile Char.isWhitespace else r3
      match r4 with
      | '"' :: r5 =>
        let cap := r5.takeWhile (· ≠ '"')
        let rest := r5.dropWhile (· ≠ '"')
        match cap, rest with
        | _ :: _, '"' :: _ => some cap
        | _, _ => none
      | _ => none
    | _ => none

/-- Leftmost regex match: try the pattern at every start position, left
to right. -/
def firstMatch (f : List Char → Option (List Char)) : List Char → Option (List Char)
  | [] => f []
  | c :: cs =>
    match f (c :: cs) with
    | some v => some v
    | none => firstMatch f cs

/-- ai_integration.rs lines 303-322 (`extract_field`): the three patterns
are tried in order over the whole text. -/
def extract_field (text : List Char) (field_name : String) : Option String :=
  let n := field_name.toList
  let r :=
    match firstMatch (matchFieldAt true true n) text with
    | some v => some v
    | none =>
      match firstMatch (matchFieldAt false true n) text with
      | some v => some v
      | none => firstMatch (matchFieldAt true false n) text
  r.map List.asString

/-- Rust `str::parse::<u32>`: an optional leading `+`, then one or more
ASCII digits, value within `u32` range. -/
def parse_u32 (s : String) : Option ℕ :=
  let cs := match s.toList with
    | '+' :: r => r
    | r => r
  if cs ≠ [] ∧ cs.all Char.isDigit then
    let v := cs.foldl (fun a c => a * 10 + (c.toNat - 48)) 0
    if v < 2 ^ 32 then some v else none
  else none

/-- The final field-extraction fallback of `parse_llm_response`
(ai_integration.rs lines 269-300): every field the extraction cannot find
is replaced by its named default. -/
def fallbackExtract (cleaned : List Char) : LLMAnalysis :=
  { current_state := (extract_field cleaned "current_state").getD "working"
    focus_trend := (extract_field cleaned "focus_trend").getD "variable"
    distraction_trend := (extract_field cleaned "distraction_trend").getD "moderate"
    confidence := (extract_field cleaned "confidence").getD "low"
    primary_activity :=
      (extract_field cleaned "primary_activity").getD "Unable to determine primary activity"
    professional_summary :=
      (extract_field cleaned "professional_summary").getD default_professional_summary
    work_score := ((extract_field cleaned "work_score").bind parse_u32).getD 50
    distraction_score := ((extract_field cleaned "distraction_score").bind parse_u32).getD 30
    neutral_score := ((extract_field cleaned "neutral_score").bind parse_u32).getD 20
    reasoning := (extract_field cleaned "reasoning").getD "Analysis incomplete due to parsing error" }

/-- Index of the first occurrence of `c` (Rust `str::find(char)`). -/
def firstIdxOf (c : Char) (s : List Char) : Option ℕ := s.findIdx? (· = c)

/-- Index of the last occurrence of `c` (Rust `str::rfind(char)`). -/
def lastIdxOf (c : Char) (s : List Char) : Option ℕ :=
  (s.reverse.findIdx? (· = c)).map fun i => s.length - 1 - i

/-- ai_integration.rs lines 236-301 (`parse_llm_response`).

`jsonParse` stands for `serde_json::from_str::<LLMAnalysis>` — external
library code, passed as a parameter (`some` = `Ok`, `none` = `Err`).

The result `none` models a PANIC: the source slices
`cleaned_response[start..=end]`, i.e. `[start..end+1]`, which panics
whenever `start > end + 1` — reachable when the last brace `\x7d`
occurs more than one position before the first brace `\x7b`.  In every
other case the function returns `some` of a structured record. -/
def parse_llm_response (jsonParse : List Char → Option LLMAnalysis)
    (response : List Char) : Option LLMAnalysis :=
  let cleaned := cleanResponse response
  match jsonParse cleaned with
  | some analysis => some analysis
  | none =>
    match firstIdxOf '\x7b' cleaned, lastIdxOf '\x7d' cleaned with
    | some s, some e =>
      if e + 1 < s then none
      else
        match jsonParse ((cleaned.drop s).take (e + 1 - s)) with
        | some analysis => some analysis
        | none => some (fallbackExtract cleaned)
    | _, _ => some (fallbackExtract cleaned)

/-! ## lib.rs interval filtering -/

/-- A raw JSON event as consumed by lib.rs (`serde_json::Value` with the
fields the code reads).  `timestamp = some t` models a `"timestamp"`
string field that parses as RFC3339, with `t` the instant in (rational)
seconds; `duration = some d` a numeric `"duration"` field; `hasData`
whether `"data"` is an object; `status` the string `data["status"]` when
present.  A missing or unparsable field is `none`/`false`, which makes
the source skip the event exactly as the embedded guards do. -/
structure RawEvent where
  timestamp : Option ℚ
  duration : Option ℚ
  hasData : Bool
  status : Option String
deriving DecidableEq

/-- The per-event body of `build_active_ranges` (lib.rs lines 599-617,
identical to the inline loop at lines 445-467): a `"not-afk"` event with
a parsable timestamp, a data object and a numeric duration contributes
the range `(timestamp, timestamp + duration as i64 seconds)`. -/
def notAfkRange (e : RawEvent) : Option (ℚ × ℚ) :=
  match e.timestamp, e.duration, e.hasData, e.status with
  | some ts, some d, true, some st =>
    if st = "not-afk" then some (ts, ts + (ratTrunc d : ℚ)) else none
  | _, _, _, _ => none

/-- lib.rs lines 596-619 (`build_active_ranges`): push one range per
qualifying event, in input order; no sorting and no merging. -/
def build_active_ranges (afk_events : List RawEvent) : List (ℚ × ℚ) :=
  afk_events.foldl (fun acc e =>
    match notAfkRange e with
    | some r => acc ++ [r]
    | none => acc) []

/-- A clipped window event as emitted by lib.rs
`get_active_window_events`: the code clones the JSON value and rewrites
only the `"duration"` and (possibly) `"timestamp"` fields, which are the
fields the claims are about. -/
structure AdjustedEvent where
  timestamp : ℚ
  duration : ℚ
deriving DecidableEq

/-- The inner range loop of lib.rs `get_active_window_events` (lines
483-511): take the FIRST active range whose truncated overlap with the
window `[ts, we)` is positive, emit one adjusted event, and `break`;
ranges with a non-positive truncated overlap are passed over. -/
def clipAgainst (ts we : ℚ) : List (ℚ × ℚ) → Option AdjustedEvent
  | [] => none
  | (rs, re) :: rest =>
    if ts < re ∧ we > rs then
      let os := max ts rs
      let oe := min we re
      let od : ℚ := (ratTrunc (oe - os) : ℚ)
      if 0 < od then
        some { timestamp := if ts < os then os else ts, duration := od }
      else clipAgainst ts we rest
    else clipAgainst ts we rest

/-- lib.rs lines 423-517 (`get_active_window_events`, the network fetch
replaced by its two event-list results): build the active ranges from
the AFK events, then clip every window event against them. -/
def get_active_window_events_lib (window_events afk_events : List RawEvent) :
    List AdjustedEvent :=
  let active_ranges := build_active_ranges afk_events
  window_events.foldl (fun acc w =>
    match w.timestamp, w.duration with
    | some ts, some d =>
      match clipAgainst ts (ts + (ratTrunc d : ℚ)) active_ranges with
      | some e => acc ++ [e]
      | none => acc
    | _, _ => acc) []

/-- Membership in the union of a list of half-open ranges `[start, stop)`. -/
def memRanges (t : ℚ) (rs : List (ℚ × ℚ)) : Prop :=
  ∃ r ∈ rs, r.1 ≤ t ∧ t < r.2

/-- The ranges are sorted by start (the spec sentence "sorted by start"). -/
def rangesSortedByStart (rs : List (ℚ × ℚ)) : Prop :=
  rs.Pairwise (fun a b => a.1 ≤ b.1)

/-- The ranges are pairwise disjoint and not even touching (the spec
merges "overlapping or touching" ranges). -/
def rangesDisjoint (rs : List (ℚ × ℚ)) : Prop :=
  rs.Pairwise (fun a b => a.2 < b.1 ∨ b.2 < a.1)

/-! ## modules/activity_watch.rs filtering -/

/-- A typed event of activity_watch.rs (`Event`, lines 29-34): serde has
already parsed `timestamp` and `duration`; `status` is `data["status"]`
as a string when present. -/
structure AwEvent where
  timestamp : ℚ
  duration : ℚ
  status : Option String
deriving DecidableEq

/-- activity_watch.rs lines 122-148, the filtering loop of its
`get_active_window_events`: keep a window event when it overlaps some
`"not-afk"` event OR when the fetched AFK event list is empty. -/
def get_active_window_events_aw (window_events afk_events : List AwEvent) :
    List AwEvent :=
  window_events.foldl (fun acc w =>
    let window_start := w.timestamp
    let window_end := w.timestamp + (ratTrunc w.duration : ℚ)
    let is_active := afk_events.any (fun a =>
      match a.status with
      | some st =>
        if st = "not-afk" then
          decide (window_start < a.timestamp + (ratTrunc a.duration : ℚ) ∧
            window_end > a.timestamp)
        else false
      | none => false)
    if is_active || afk_events.isEmpty then acc ++ [w] else acc) []

/-! ## HTTP event queries (lib.rs `fetch_events_common`,
activity_watch.rs `get_events`) -/

/-- Outcome classes of an events query. -/
inductive FetchError where
  | invalidRange
  | requestFailed
  | httpStatus (code : ℕ)
  | parseFailed
deriving DecidableEq

/-- An HTTP response: its status code and the result of JSON-decoding
its body (`none` = decode failure).  The network call itself may fail,
which callers model as an absent response. -/
structure HttpResponse (α : Type) where
  status : ℕ
  body : Option (List α)

/-- `reqwest::StatusCode::is_success`: 2xx. -/
def statusIsSuccess (s : ℕ) : Bool := 200 ≤ s ∧ s < 300

/-- lib.rs lines 133-171 (`fetch_events_common`), with the network
exchange abstracted to its `Option HttpResponse` outcome.  The clipping
of `end` to `now` and the rounding to whole seconds only shape the
request URL and are irrelevant to the returned value.  A 500 status is
converted to an empty successful result; any other non-success status is
an error. -/
def fetch_events_common (start stop : ℚ) (resp : Option (HttpResponse RawEvent)) :
    Except FetchError (List RawEvent) :=
  if stop ≤ start then .error .invalidRange
  else
    match resp with
    | none => .error .requestFailed
    | some r =>
      if ¬ statusIsSuccess r.status then
        if r.status = 500 then .ok []
        else .error (.httpStatus r.status)
      else
        match r.body with
        | some events => .ok events
        | none => .error .parseFailed

/-- activity_watch.rs lines 52-88 (`get_events`), same abstraction: ANY
non-success status — 500 included — is an error. -/
def get_events_aw (resp : Option (HttpResponse AwEvent)) :
    Except FetchError (List AwEvent) :=
  match resp with
  | none => .error .requestFailed
  | some r =>
    if ¬ statusIsSuccess r.status then .error (.httpStatus r.status)
    else
      match r.body with
      | some events => .ok events
      | none => .error .parseFailed

/-! ## modules/database.rs app categories and
modules/app_state.rs auto-categorization -/

/-- One row of the `app_categories` table (schema at database.rs lines
111-120), keyed by app name. -/
structure CategoryRecord where
  category : String
  subcategory : Option String
  productivity_score : ℤ
  auto_detected : Bool
  user_modified : Bool
  updated_at : ℤ
deriving DecidableEq

/-- The `app_categories` table as a map from app name to row. -/
def CategoryTable : Type := String → Option CategoryRecord

/-- database.rs lines 497-530 (`set_app_category`): an upsert.  A fresh
insert does not list `user_modified`, so it takes the column default 0.
On conflict every content column is overwritten from the excluded row —
`COALESCE(excluded.productivity_score, old)` always takes the excluded
value because the binding is `productivity_score.unwrap_or(50)`, never
NULL — and `user_modified` becomes 1 on a user write
(`excluded.auto_detected = 0`) and is otherwise kept.  Nothing consults
`user_modified` before overwriting. -/
def set_app_category (db : CategoryTable) (app_name category : String)
    (subcategory : Option String) (productivity_score : Option ℤ)
    (auto_detected : Bool) (now : ℤ) : CategoryTable :=
  fun a =>
    if a = app_name then
      match db app_name with
      | none =>
        some { category := category
               subcategory := subcategory
               productivity_score := productivity_score.getD 50
               auto_detected := auto_detected
               user_modified := false
               updated_at := now }
      | some old =>
        some { category := category
               subcategory := subcategory
               productivity_score := productivity_score.getD 50
               auto_detected := auto_detected
               user_modified := if auto_detected = false then true else old.user_modified
               updated_at := now }
    else db a

/-- One item of the parsed LLM categorization response: the object key
(an app name) with its `category` (defaulted to "other"), optional
`subcategory` and optional `productivity_score`, as read at
app_state.rs lines 150-169. -/
structure LlmCategoryItem where
  app_name : String
  category : String
  subcategory : Option String
  productivity_score : Option ℤ
deriving DecidableEq

/-- The write loop of `auto_categorize_apps` (app_state.rs lines
148-171): for every key of whatever object the text-generation backend
returned — the keys are NOT restricted to the queried uncategorized
apps — call `set_app_category` with `auto_detected = true`. -/
def auto_categorize_pass (db : CategoryTable) (items : List LlmCategoryItem)
    (now : ℤ) : CategoryTable :=
  items.foldl (fun d it =>
    set_app_category d it.app_name it.category it.subcategory
      it.productivity_score true now) db

/-! ## Concrete inputs used by counterexamples and witnesses -/

/-- Three one-minute activities falling in the three top-level percentage
groups: work, entertainment (distraction), communication (neutral). -/
def cexActivities : List Activity :=
  [ { app := "a", category := "work", score := none, duration := 1 },
    { app := "b", category := "entertainment", score := none, duration := 1 },
    { app := "c", category := "communication", score := none, duration := 1 } ]

/-- The response text in which the last closing brace precedes the first
opening brace by more than one position. -/
def panicInput : List Char := ['\x7d', 'a', '\x7b']

/-- Two overlapping, unordered `"not-afk"` events. -/
def cexAfkEvents : List RawEvent :=
  [ { timestamp := some 10, duration := some 10, hasData := true, status := some "not-afk" },
    { timestamp := some 0, duration := some 15, hasData := true, status := some "not-afk" } ]

/-- A window event starting at 0 lasting 10 seconds. -/
def exWindow : RawEvent :=
  { timestamp := some 0, duration := some 10, hasData := false, status := none }

/-- An active (`"not-afk"`) period from 5 to 15. -/
def exAfk : RawEvent :=
  { timestamp := some 5, duration := some 10, hasData := true, status := some "not-afk" }

/-- The empty app-category table. -/
def dbEmpty : CategoryTable := fun _ => none

/-- A first automatic categorization of one app (fresh insert,
`auto_detected = 1`). -/
def dbAfterAuto : CategoryTable :=
  set_app_category dbEmpty "Discord.exe" "communication" (some "chat") (some 40) true 1

/-- The user then edits that app (`auto_detected = 0`, which sets
`user_modified = 1`). -/
def dbAfterUser : CategoryTable :=
  set_app_category dbAfterAuto "Discord.exe" "work" none (some 90) false 2

/-- A later LLM categorization response whose object happens to name the
user-edited app (its keys are unrestricted external text). -/
def llmEcho : List LlmCategoryItem :=
  [ { app_name := "Discord.exe", category := "entertainment",
      subcategory := none, productivity_score := some 30 } ]

/-- The table after the next automatic categorization pass. -/
def dbAfterSecondAuto : CategoryTable := auto_categorize_pass dbAfterUser llmEcho 3

/-! ## Helper lemmas -/

theorem foldl_push_eq_append {α : Type} (l acc : List α) :
    l.foldl (fun acc a => acc ++ [a]) acc = acc ++ l := by
  induction l generalizing acc with
  | nil => simp
  | cons a l ih => simp [ih]

theorem ratTrunc_le_self (x : ℚ) (hx : 0 ≤ x) : (ratTrunc x : ℚ) ≤ x := by
  unfold ratTrunc
  rw [if_pos hx]
  exact Int.floor_le x

theorem ratTrunc_pos_facts (x : ℚ) (h : 0 < (ratTrunc x : ℚ)) :
    0 < x ∧ (ratTrunc x : ℚ) ≤ x := by
  by_cases hx : 0 ≤ x
  · refine ⟨?_, ratTrunc_le_self x hx⟩
    rcases lt_or_eq_of_le hx with h1 | h1
    · exact h1
    · exfalso
      rw [ratTrunc, if_pos hx, ← h1] at h
      simp at h
  · exfalso
    unfold ratTrunc at h
    rw [if_neg hx] at h
    push_neg at hx
    have : (⌈x⌉ : ℤ) ≤ 0 := Int.ceil_le.mpr (by push_cast; linarith)
    have : ((⌈x⌉ : ℤ) : ℚ) ≤ 0 := by exact_mod_cast this
    linarith

theorem rustRound_le (q : ℚ) : (rustRound q : ℚ) ≤ q + 1/2 := by
  unfold rustRound
  split_ifs with h
  · exact Int.floor_le _
  · have := Int.ceil_lt_add_one (q - 1/2)
    push_cast at this ⊢
    linarith

theorem le_rustRound (q : ℚ) : q - 1/2 ≤ (rustRound q : ℚ) := by
  unfold rustRound
  split_ifs with h
  · have := Int.sub_one_lt_floor (q + 1/2)
    push_cast at this ⊢
    linarith
  · have := Int.le_ceil (q - 1/2)
    push_cast at this ⊢
    linarith

theorem productivity_level_cases (category : String) (score : Option ℤ) :
    productivity_level category score = "productive" ∨
    productivity_level category score = "moderate" ∨
    productivity_level category score = "neutral" ∨
    productivity_level category score = "unproductive" := by
  cases score with
  | some s =>
    simp only [productivity_level]
    split_ifs <;> simp
  | none =>
    simp only [productivity_level]
    split_ifs <;> simp

theorem level_duration_partition (a : Activity) :
    level_duration "productive" a + level_duration "moderate" a +
      level_duration "neutral" a + level_duration "unproductive" a = a.duration := by
  rcases productivity_level_cases a.category a.score with h | h | h | h <;>
    simp [level_duration, h]

theorem bucket_partition (acts : List Activity) :
    bucket_minutes acts "productive" + bucket_minutes acts "moderate" +
      bucket_minutes acts "neutral" + bucket_minutes acts "unproductive" =
      total_minutes acts := by
  induction acts with
  | nil => simp [bucket_minutes, total_minutes]
  | cons a l ih =>
    simp only [bucket_minutes, total_minutes, List.map_cons, List.sum_cons] at ih ⊢
    have := level_duration_partition a
    linarith

/-! ## C1 -/

/-- C1 counterexample: the three returned percentages are each produced
by an independent `.round()`, so for three equal one-minute activities in
the work, entertainment and communication groups they are 33 + 33 + 33 =
99 ≠ 100, although the activity list is non-empty with nonzero total
duration. -/
theorem work_distraction_neutral_sum_99_cex :
    cexActivities ≠ [] ∧
    total_minutes cexActivities ≠ 0 ∧
    (calculate_productivity_metrics cexActivities 0 1).work_percentage +
      (calculate_productivity_metrics cexActivities 0 1).distraction_percentage +
      (calculate_productivity_metrics cexActivities 0 1).neutral_percentage = 99 ∧
    (calculate_productivity_metrics cexActivities 0 1).work_percentage +
      (calculate_productivity_metrics cexActivities 0 1).distraction_percentage +
      (calculate_productivity_metrics cexActivities 0 1).neutral_percentage ≠ 100 := by
  have hp : bucket_minutes cexActivities "productive" = 1 := by
    norm_num +decide [bucket_minutes, cexActivities, level_duration, productivity_level]
  have hm : bucket_minutes cexActivities "moderate" = 0 := by
    norm_num +decide [bucket_minutes, cexActivities, level_duration, productivity_level]
  have hu : bucket_minutes cexActivities "unproductive" = 1 := by
    norm_num +decide [bucket_minutes, cexActivities, level_duration, productivity_level]
  have hn : bucket_minutes cexActivities "neutral" = 1 := by
    norm_num +decide [bucket_minutes, cexActivities, level_duration, productivity_level]
  have ht : total_minutes cexActivities = 3 := by
    norm_num [total_minutes, cexActivities]
  have hsum : (calculate_productivity_metrics cexActivities 0 1).work_percentage +
      (calculate_productivity_metrics cexActivities 0 1).distraction_percentage +
      (calculate_productivity_metrics cexActivities 0 1).neutral_percentage = 99 := by
    simp only [calculate_productivity_metrics, ht, hp, hm, hu, hn]
    norm_num [rustRound]
  refine ⟨by decide, by rw [ht]; norm_num, hsum, by rw [hsum]; norm_num⟩

/-- C1 (amended): for every call to `calculate_productivity_metrics`
with positive total duration, the sum of the three rounded percentages
lies within 1 of 100 (each summand deviates from its exact value by at
most 1/2 and the exact values sum to exactly 100). -/
theorem work_distraction_neutral_sum_near_100 (activities : List Activity)
    (context_switches : ℕ) (total_hours : ℚ)
    (h : 0 < total_minutes activities) :
    99 ≤ (calculate_productivity_metrics activities context_switches total_hours).work_percentage +
        (calculate_productivity_metrics activities context_switches total_hours).distraction_percentage +
        (calculate_productivity_metrics activities context_switches total_hours).neutral_percentage ∧
      (calculate_productivity_metrics activities context_switches total_hours).work_percentage +
        (calculate_productivity_metrics activities context_switches total_hours).distraction_percentage +
        (calculate_productivity_metrics activities context_switches total_hours).neutral_percentage ≤ 101 := by
  simp only [calculate_productivity_metrics, if_pos h]
  set t := total_minutes activities with ht
  set p := bucket_minutes activities "productive" with hp
  set mo := bucket_minutes activities "moderate" with hmo
  set u := bucket_minutes activities "unproductive" with hu
  set n := bucket_minutes activities "neutral" with hn
  have ht0 : t ≠ 0 := ne_of_gt h
  have hpart : p + mo + n + u = t := bucket_partition activities
  have hexact : (p + mo) / t * 100 + u / t * 100 + n / t * 100 = 100 := by
    field_simp
    linarith
  have h1a := rustRound_le ((p + mo) / t * 100)
  have h1b := le_rustRound ((p + mo) / t * 100)
  have h2a := rustRound_le (u / t * 100)
  have h2b := le_rustRound (u / t * 100)
  have h3a := rustRound_le (n / t * 100)
  have h3b := le_rustRound (n / t * 100)
  constructor
  · have hq : (98 : ℚ) < ((rustRound ((p + mo) / t * 100) +
        rustRound (u / t * 100) + rustRound (n / t * 100) : ℤ) : ℚ) := by
      push_cast
      linarith
    have hz : (98 : ℤ) < rustRound ((p + mo) / t * 100) +
        rustRound (u / t * 100) + rustRound (n / t * 100) := by exact_mod_cast hq
    omega
  · have hq : ((rustRound ((p + mo) / t * 100) +
        rustRound (u / t * 100) + rustRound (n / t * 100) : ℤ) : ℚ) < 102 := by
      push_cast
      linarith
    have hz : rustRound ((p + mo) / t * 100) +
        rustRound (u / t * 100) + rustRound (n / t * 100) < (102 : ℤ) := by exact_mod_cast hq
    omega

/-- C1 witness: the amended bound evaluated at the concrete activity
list (whose percentage sum is exactly 99). -/
theorem work_distraction_neutral_sum_near_100_witness :
    0 < total_minutes cexActivities ∧
    (99 ≤ (calculate_productivity_metrics cexActivities 0 1).work_percentage +
        (calculate_productivity_metrics cexActivities 0 1).distraction_percentage +
        (calculate_productivity_metrics cexActivities 0 1).neutral_percentage ∧
      (calculate_productivity_metrics cexActivities 0 1).work_percentage +
        (calculate_productivity_metrics cexActivities 0 1).distraction_percentage +
        (calculate_productivity_metrics cexActivities 0 1).neutral_percentage ≤ 101) :=
  ⟨by norm_num [total_minutes, cexActivities],
    work_distraction_neutral_sum_near_100 cexActivities 0 1
      (by norm_num [total_minutes, cexActivities])⟩

/-! ## C8 -/

/-- C8: with mode "coach", current minute 15 and the last run at least 60
seconds in the past, `should_run_summary` fires; and for EVERY mode, a
last run less than 60 seconds ago suppresses the cycle regardless of the
current minute. -/
theorem coach_fires_and_sixty_second_guard :
    (∀ now last : ℤ, minuteOf now = 15 → 60 ≤ now - last →
      should_run_summary "coach" (some last) now = true) ∧
    (∀ (mode : String) (last now : ℤ), 0 ≤ now - last → now - last < 60 →
      should_run_summary mode (some last) now = false) := by
  constructor
  · intro now last hmin helapsed
    have hguard : ¬ (now - last < 60) := by omega
    simp [should_run_summary, hguard, hmin]
  · intro mode last now _ helapsed
    simp [should_run_summary, helapsed]

/-- C8 witness: at `now = 900` (minute 15 of the hour) with the last run
at `0` (minute 0 of the same hour) coach mode fires; with the last run 30
seconds ago, ghost mode does not fire. -/
theorem coach_fires_and_sixty_second_guard_witness :
    (minuteOf 900 = 15 ∧ 60 ≤ (900 : ℤ) - 0 ∧
      should_run_summary "coach" (some 0) 900 = true) ∧
    (0 ≤ (30 : ℤ) - 0 ∧ (30 : ℤ) - 0 < 60 ∧
      should_run_summary "ghost" (some 0) 30 = false) :=
  ⟨⟨by decide, by decide, coach_fires_and_sixty_second_guard.1 900 0 (by decide) (by decide)⟩,
    ⟨by decide, by decide, coach_fires_and_sixty_second_guard.2 "ghost" 0 30 (by decide) (by decide)⟩⟩

/-! ## C2 -/

/-- C2: the parser is NOT total.  On the input text `\x7da\x7b` — where
the last closing brace precedes the first opening brace — whenever the
direct JSON parse fails (as it must on this non-JSON text), the source
slices `cleaned_response[2..=0]`, i.e. `[2..1]`, and panics.  The panic
is the `none` result of the embedding. -/
theorem parse_llm_response_panic (jsonParse : List Char → Option LLMAnalysis)
    (h : jsonParse panicInput = none) :
    parse_llm_response jsonParse panicInput = none := by
  simp only [parse_llm_response]
  rw [show cleanResponse panicInput = panicInput from rfl, h]
  rfl

/-- C2 witness: the panic evaluated with a concrete (everywhere-failing)
JSON parse function. -/
theorem parse_llm_response_panic_witness :
    (fun _ : List Char => (none : Option LLMAnalysis)) panicInput = none ∧
    parse_llm_response (fun _ => none) panicInput = none :=
  ⟨rfl, parse_llm_response_panic (fun _ => none) rfl⟩

/-! ## C9 -/

/-- C9 counterexample: on the empty response the confidence field cannot
be extracted, yet the fallback produces "low", not "medium" as the claim
states. -/
theorem confidence_default_is_low_cex :
    extract_field [] "confidence" = none ∧
    (fallbackExtract []).confidence ≠ "medium" ∧
    (fallbackExtract []).confidence = "low" :=
  ⟨rfl, by decide, rfl⟩

/-- C9 (amended): in the field-extraction fallback every field that
cannot be found is replaced by its named default; the state field
defaults to "working" and the confidence field defaults to "low" (not
"medium"). -/
theorem fallback_named_defaults (text : List Char) :
    (extract_field text "current_state" = none →
      (fallbackExtract text).current_state = "working") ∧
    (extract_field text "focus_trend" = none →
      (fallbackExtract text).focus_trend = "variable") ∧
    (extract_field text "distraction_trend" = none →
      (fallbackExtract text).distraction_trend = "moderate") ∧
    (extract_field text "confidence" = none →
      (fallbackExtract text).confidence = "low") ∧
    (extract_field text "primary_activity" = none →
      (fallbackExtract text).primary_activity = "Unable to determine primary activity") ∧
    (extract_field text "professional_summary" = none →
      (fallbackExtract text).professional_summary = default_professional_summary) ∧
    (extract_field text "work_score" = none →
      (fallbackExtract text).work_score = 50) ∧
    (extract_field text "distraction_score" = none →
      (fallbackExtract text).distraction_score = 30) ∧
    (extract_field text "neutral_score" = none →
      (fallbackExtract text).neutral_score = 20) ∧
    (extract_field text "reasoning" = none →
      (fallbackExtract text).reasoning = "Analysis incomplete due to parsing error") := by
  refine ⟨?_, ?_, ?_, ?_, ?_, ?_, ?_, ?_, ?_, ?_⟩ <;>
    intro h <;> simp [fallbackExtract, h]

/-- C9 witness: the defaults evaluated on the empty response text. -/
theorem fallback_named_defaults_witness :
    extract_field [] "current_state" = none ∧
    (fallbackExtract []).current_state = "working" ∧
    extract_field [] "confidence" = none ∧
    (fallbackExtract []).confidence = "low" :=
  ⟨rfl, (fallback_named_defaults []).1 rfl, rfl,
    (fallback_named_defaults []).2.2.2.1 rfl⟩

/-! ## C10 -/

/-- C10 counterexample: on the text `\x7da\x7b` both JSON parse attempts
fail and none of the three score fields can be extracted, yet the
function does not return the 50/30/20 record — it panics (see C2). -/
theorem parse_fallback_scores_cex :
    extract_field panicInput "work_score" = none ∧
    extract_field panicInput "distraction_score" = none ∧
    extract_field panicInput "neutral_score" = none ∧
    parse_llm_response (fun _ => none) panicInput = none :=
  ⟨rfl, rfl, rfl, rfl⟩

/-- C10 (amended): whenever every JSON parse attempt fails, none of the
three score fields can be extracted, and the call returns at all (the
brace-substring stage can panic, see C2), the returned record carries
work 50, distraction 30, neutral 20, summing to 100. -/
theorem parse_fallback_scores (jsonParse : List Char → Option LLMAnalysis)
    (response : List Char) (r : LLMAnalysis)
    (hjson : ∀ s, jsonParse s = none)
    (hw : extract_field (cleanResponse response) "work_score" = none)
    (hd : extract_field (cleanResponse response) "distraction_score" = none)
    (hn : extract_field (cleanResponse response) "neutral_score" = none)
    (hret : parse_llm_response jsonParse response = some r) :
    r.work_score = 50 ∧ r.distraction_score = 30 ∧ r.neutral_score = 20 ∧
    r.work_score + r.distraction_score + r.neutral_score = 100 := by
  have hr : r = fallbackExtract (cleanResponse response) := by
    simp only [parse_llm_response, hjson] at hret
    split at hret
    · split at hret
      · exact absurd hret (by simp)
      · exact (Option.some.inj hret).symm
    · exact (Option.some.inj hret).symm
  subst hr
  refine ⟨?_, ?_, ?_, ?_⟩ <;> simp [fallbackExtract, hw, hd, hn]

/-- C10 witness: the amended statement evaluated on the empty response
with an everywhere-failing JSON parse function. -/
theorem parse_fallback_scores_witness :
    extract_field (cleanResponse []) "work_score" = none ∧
    parse_llm_response (fun _ => none) [] = some (fallbackExtract (cleanResponse [])) ∧
    ((fallbackExtract (cleanResponse [])).work_score = 50 ∧
      (fallbackExtract (cleanResponse [])).distraction_score = 30 ∧
      (fallbackExtract (cleanResponse [])).neutral_score = 20 ∧
      (fallbackExtract (cleanResponse [])).work_score +
        (fallbackExtract (cleanResponse [])).distraction_score +
        (fallbackExtract (cleanResponse [])).neutral_score = 100) :=
  ⟨rfl, rfl,
    parse_fallback_scores (fun _ => none) [] (fallbackExtract (cleanResponse []))
      (fun _ => rfl) rfl rfl rfl rfl⟩

/-! ## C3 -/

/-- C3 counterexample: `build_active_ranges` performs no sorting and no
merging, so two overlapping, unordered `"not-afk"` events yield the
ranges `[(10, 20), (0, 15)]`, which are neither sorted by start nor
pairwise disjoint. -/
theorem active_ranges_unsorted_cex :
    ¬ (rangesSortedByStart (build_active_ranges cexAfkEvents) ∧
       rangesDisjoint (build_active_ranges cexAfkEvents) ∧
       ∀ t : ℚ, memRanges t (build_active_ranges cexAfkEvents) ↔
         memRanges t (cexAfkEvents.filterMap notAfkRange)) := by
  intro hcl
  have hs := hcl.1
  have he : build_active_ranges cexAfkEvents =
      [((10 : ℚ), (20 : ℚ)), ((0 : ℚ), (15 : ℚ))] := by
    simp [build_active_ranges, cexAfkEvents, notAfkRange, ratTrunc]
    norm_num
  rw [he] at hs
  simp only [rangesSortedByStart, List.pairwise_cons, List.mem_singleton] at hs
  have := hs.1 (0, 15) rfl
  norm_num at this

/-- C3 (amended): the active ranges are exactly the `"not-afk"`
intervals extracted from the idle-state events, in input order — no
sorting and no merging happen — and hence their union equals the union
of those input intervals. -/
theorem build_active_ranges_eq_inputs (afk_events : List RawEvent) :
    build_active_ranges afk_events = afk_events.filterMap notAfkRange ∧
    ∀ t : ℚ, memRanges t (build_active_ranges afk_events) ↔
      memRanges t (afk_events.filterMap notAfkRange) := by
  have he : ∀ (l : List RawEvent) (acc : List (ℚ × ℚ)),
      (l.foldl (fun acc e =>
        match notAfkRange e with
        | some r => acc ++ [r]
        | none => acc) acc) = acc ++ l.filterMap notAfkRange := by
    intro l
    induction l with
    | nil => intro acc; simp
    | cons a l ih =>
      intro acc
      cases hr : notAfkRange a <;> simp [List.filterMap_cons, hr, ih]
  have h1 : build_active_ranges afk_events = afk_events.filterMap notAfkRange := by
    simpa [build_active_ranges] using he afk_events []
  exact ⟨h1, fun t => by rw [h1]⟩

/-! ## C4 -/

/-- Soundness of the first-overlap clipping loop: an emitted event comes
from some range in the list, starts at `max ts r.1`, ends inside both
the window and the range, and has positive duration. -/
theorem clipAgainst_sound (ts we : ℚ) :
    ∀ (ranges : List (ℚ × ℚ)) (e : AdjustedEvent),
      clipAgainst ts we ranges = some e →
      ∃ r ∈ ranges,
        r.1 ≤ e.timestamp ∧ e.timestamp + e.duration ≤ min we r.2 ∧
        e.timestamp = max ts r.1 ∧ 0 < e.duration := by
  intro ranges
  induction ranges with
  | nil =>
    intro e h
    simp [clipAgainst] at h
  | cons r rest ih =>
    intro e h
    rcases r with ⟨rs, re⟩
    simp only [clipAgainst] at h
    rw [show (if ts < max ts rs then max ts rs else ts) = max ts rs by
      by_cases hc : ts < max ts rs
      · rw [if_pos hc]
      · rw [if_neg hc]
        push_neg at hc
        exact le_antisymm (le_max_left ts rs) hc] at h
    split_ifs at h with h1 h2
    · obtain rfl : e = _ := (Option.some.inj h).symm
      obtain ⟨hpos, hle⟩ := ratTrunc_pos_facts _ h2
      refine ⟨(rs, re), List.mem_cons_self _ _, ?_, ?_, ?_, ?_⟩
      · exact le_max_right ts rs
      · simp only
        linarith
      · rfl
      · exact h2
    · obtain ⟨r', hr', hrest⟩ := ih e h
      exact ⟨r', List.mem_cons_of_mem _ hr', hrest⟩
    · obtain ⟨r', hr', hrest⟩ := ih e h
      exact ⟨r', List.mem_cons_of_mem _ hr', hrest⟩

/-- C4: for every window event with a parsed timestamp and nonnegative
duration and every AFK event set, the events emitted for it by the lib.rs
active-window filter have total duration at most the original duration,
and each emitted event lies fully inside the active range it was clipped
to, its timestamp moved to the start of the overlap when the event began
earlier. -/
theorem clipped_events_bounded (w : RawEvent) (afk_events : List RawEvent)
    (ts d : ℚ) (hts : w.timestamp = some ts) (hd : w.duration = some d)
    (hd0 : 0 ≤ d) :
    ((get_active_window_events_lib [w] afk_events).map AdjustedEvent.duration).sum ≤ d ∧
    ∀ e ∈ get_active_window_events_lib [w] afk_events,
      ∃ r ∈ build_active_ranges afk_events,
        r.1 ≤ e.timestamp ∧ e.timestamp + e.duration ≤ r.2 ∧
        e.timestamp = max ts r.1 := by
  rcases hclip : clipAgainst ts (ts + (ratTrunc d : ℚ)) (build_active_ranges afk_events)
    with _ | e
  · have hout : get_active_window_events_lib [w] afk_events = [] := by
      simp [get_active_window_events_lib, hts, hd, hclip]
    rw [hout]
    exact ⟨by simpa using hd0, fun e he => absurd he (by simp)⟩
  · have hout : get_active_window_events_lib [w] afk_events = [e] := by
      simp [get_active_window_events_lib, hts, hd, hclip]
    rw [hout]
    obtain ⟨r, hr, hstart, hstop, hadj, hpos⟩ := clipAgainst_sound ts _ _ e hclip
    constructor
    · simp only [List.map_cons, List.map_nil, List.sum_cons, List.sum_nil, add_zero]
      have htr : (ratTrunc d : ℚ) ≤ d := ratTrunc_le_self d hd0
      have hwe : e.timestamp + e.duration ≤ ts + (ratTrunc d : ℚ) :=
        le_trans hstop (min_le_left _ _)
      have hts' : ts ≤ e.timestamp := hadj ▸ le_max_left _ _
      linarith
    · intro e' he'
      rw [List.mem_singleton] at he'
      subst he'
      exact ⟨r, hr, hstart, le_trans hstop (min_le_right _ _), hadj⟩

/-- C4 witness: a window event `[0, 10)` clipped against the single
active range `(5, 15)` — the emitted event is `[5, 10)`. -/
theorem clipped_events_bounded_witness :
    ((get_active_window_events_lib [exWindow] [exAfk]).map AdjustedEvent.duration).sum ≤ 10 ∧
    ∀ e ∈ get_active_window_events_lib [exWindow] [exAfk],
      ∃ r ∈ build_active_ranges [exAfk],
        r.1 ≤ e.timestamp ∧ e.timestamp + e.duration ≤ r.2 ∧
        e.timestamp = max 0 r.1 :=
  clipped_events_bounded exWindow [exAfk] 0 10 rfl rfl (by norm_num)

/-! ## C5 -/

/-- C5: divergence of the two active-window filters on an empty fetched
AFK event collection.  The activity_watch.rs filter returns every window
event unchanged (the claimed behaviour), while the lib.rs filter builds
an empty active-range list and discards every window event. -/
theorem empty_afk_filter_divergence :
    (∀ window_events : List AwEvent,
      get_active_window_events_aw window_events [] = window_events) ∧
    get_active_window_events_lib [exWindow] [] = [] := by
  constructor
  · intro ws
    have h : get_active_window_events_aw ws [] =
        ws.foldl (fun acc w => acc ++ [w]) [] := by
      simp [get_active_window_events_aw]
    rw [h, foldl_push_eq_append]
    simp
  · rfl

/-! ## C6 -/

/-- C6: a reachable run in which an automatic categorization pass
overwrites a user-origin record.  After the user edit the stored row is
`(work, none, 90)` with `user_modified = 1`; the next automatic pass —
whose write loop ranges over whatever keys the language-model response
contains — rewrites it to `(entertainment, none, 30)` while
`user_modified` is still 1, because `set_app_category` never consults
`user_modified`. -/
theorem user_record_overwritten_by_auto_pass :
    dbAfterUser "Discord.exe" =
      some { category := "work", subcategory := none, productivity_score := 90,
             auto_detected := false, user_modified := true, updated_at := 2 } ∧
    dbAfterSecondAuto "Discord.exe" =
      some { category := "entertainment", subcategory := none, productivity_score := 30,
             auto_detected := true, user_modified := true, updated_at := 3 } :=
  ⟨rfl, rfl⟩

/-! ## C7 -/

/-- C7 counterexample: an events query answered with HTTP status 500
through the activity_watch.rs client (`get_events`) is an error, not a
successful empty result. -/
theorem get_events_aw_500_is_error :
    get_events_aw (some { status := 500, body := some [] }) =
      .error (.httpStatus 500) ∧
    get_events_aw (some { status := 500, body := some [] }) ≠ .ok [] :=
  ⟨rfl, by
    rw [show get_events_aw (some { status := 500, body := some [] }) =
      Except.error (FetchError.httpStatus 500) from rfl]
    simp⟩

/-- C7 (amended): for events queries through lib.rs
`fetch_events_common` a 500 status yields the successful empty list and
any other non-success status yields an error; queries through
activity_watch.rs `get_events` yield an error for EVERY non-success
status, 500 included. -/
theorem events_query_status_handling (start stop : ℚ) (h : start < stop) :
    (∀ body, fetch_events_common start stop (some { status := 500, body := body }) =
      .ok []) ∧
    (∀ code body, statusIsSuccess code = false → code ≠ 500 →
      fetch_events_common start stop (some { status := code, body := body }) =
        .error (.httpStatus code)) ∧
    (∀ code (body : Option (List AwEvent)), statusIsSuccess code = false →
      get_events_aw (some { status := code, body := body }) =
        .error (.httpStatus code)) := by
  have hns : ¬ stop ≤ start := not_le.mpr h
  refine ⟨?_, ?_, ?_⟩
  · intro body
    simp [fetch_events_common, hns, statusIsSuccess]
  · intro code body hcode hne
    simp [fetch_events_common, hns, hcode, hne]
  · intro code body hcode
    simp [get_events_aw, hcode]

/-- C7 witness: the three clauses evaluated at a concrete range and
concrete statuses (500 and 404). -/
theorem events_query_status_handling_witness :
    (0 : ℚ) < 1 ∧
    fetch_events_common 0 1 (some { status := 500, body := none }) = .ok [] ∧
    statusIsSuccess 404 = false ∧
    fetch_events_common 0 1 (some { status := 404, body := none }) =
      .error (.httpStatus 404) ∧
    get_events_aw (some { status := 500, body := (none : Option (List AwEvent)) }) =
      .error (.httpStatus 500) :=
  ⟨by norm_num,
    (events_query_status_handling 0 1 (by norm_num)).1 none,
    by decide,
    (events_query_status_handling 0 1 (by norm_num)).2.1 404 none (by decide) (by decide),
    (events_query_status_handling 0 1 (by norm_num)).2.2 500
      (none : Option (List AwEvent)) (by decide)⟩

end CompanionCube
